import Mathlib

/-!
Verification development for the TALKER-TTS core: a shallow embedding of
`src/tts_service/radio_effects_processor.py` (the radio-effects DSP chain)
and `src/tts_service/audio_queue.py` (the playback queue), with theorems
settling the frozen claims about them.

Modelling conventions:
* Audio samples are exact rationals (`ℚ`); a buffer is a `List ℚ`.
* The FFT-based body of `_apply_telephone_eq` (lines 88-148) works with
  irrational roots of unity, so it is a parameter `spectral`; likewise
  `np.tanh` in `_apply_digital_transfer_effects` is a parameter `tanh`.
  Everything else is translated literally.
* Exceptions are modelled by an oracle record `FxOracle`: one flag per
  source location that can raise inside `apply_radio_effects`'s `try`
  block (loading, EQ, transfer, beep, normalize, write).  The control
  flow of the handlers is translated from the source: a single outer
  `except` returning `input_file`, plus the internal handler inside
  `_add_pda_start_beep` that returns its argument unchanged.
* File-system facts (`Path.exists()`) are boolean parameters.
-/

namespace TalkerTTS

/-- `np.sign` restricted to rational inputs. -/
def sgn (x : ℚ) : ℚ := if x < 0 then -1 else if x = 0 then 0 else 1

/-- Python `int(...)`: truncation toward zero. -/
def pyTrunc (q : ℚ) : ℤ := if 0 ≤ q then ⌊q⌋ else -⌊-q⌋

/-- `np.round` / Python 3 `round`: round half to even. -/
def roundHalfEven (q : ℚ) : ℤ :=
  if q - ⌊q⌋ < 1 / 2 then ⌊q⌋
  else if (1 : ℚ) / 2 < q - ⌊q⌋ then ⌊q⌋ + 1
  else if ⌊q⌋ % 2 = 0 then ⌊q⌋ else ⌊q⌋ + 1

/-- `bit_depth = 15 - int(strength * 2)` (radio_effects_processor.py lines 159 and 165). -/
def bitDepth (strength : ℚ) : ℤ := 15 - pyTrunc (strength * 2)

/-- Modelled from the spec: the spec states the quantization depth formula as
`depth = 15 - round(2*strength)` bits; this definition follows the spec's
words (Python `round`, half to even) so it can be compared with `bitDepth`,
which is translated from the source. -/
def bitDepthSpec (strength : ℚ) : ℤ := 15 - roundHalfEven (2 * strength)

/-- `max_val = 2**(bit_depth-1) - 1` (line 160/166). -/
def maxVal (depth : ℤ) : ℚ := (2 : ℚ) ^ (depth - 1) - 1

/-- `processed = np.round(processed * max_val) / max_val` (line 161/167). -/
def quantize (depth : ℤ) (audio : List ℚ) : List ℚ :=
  audio.map (fun x => (roundHalfEven (x * maxVal depth) : ℚ) / maxVal depth)

/-- `kernel = np.array([0.1, 0.2, 0.4, 0.2, 0.1])` (line 172). -/
def kernel5 : List ℚ := [0.1, 0.2, 0.4, 0.2, 0.1]

/-- `np.pad(processed, kernel_size//2, mode='edge')` (line 173): replicate the
first and last sample `k` times on the respective side. -/
def edgePad (k : ℕ) (l : List ℚ) : List ℚ :=
  List.replicate k (l.headD 0) ++ l ++ List.replicate k (l.getLastD 0)

/-- `np.convolve(padded, kernel, mode='valid')` (line 174): sliding dot product
with the reversed kernel, producing `len(a) - len(kernel) + 1` samples. -/
def convValid (kernel a : List ℚ) : List ℚ :=
  (List.range (a.length + 1 - kernel.length)).map (fun n =>
    ∑ j ∈ Finset.range kernel.length,
      a.getD (n + j) 0 * kernel.getD (kernel.length - 1 - j) 0)

/-- One sample of the digital compression (lines 177-186): samples strictly
above the threshold in magnitude are remapped to
`sign * (threshold + (|x| - threshold) / ratio)`. -/
def compressSample (threshold ratio x : ℚ) : ℚ :=
  if threshold < |x| then sgn x * (threshold + (|x| - threshold) / ratio) else x

/-- The recurrence `filtered[i] = alpha*filtered[i-1] + (1-alpha)*processed[i]`
(lines 199-202), carrying the previous output. -/
def onePoleAux (alpha prev : ℚ) : List ℚ → List ℚ
  | [] => []
  | x :: xs =>
    let y := alpha * prev + (1 - alpha) * x
    y :: onePoleAux alpha y xs

/-- One-pole low-pass filter, `filtered[0] = processed[0]` (lines 197-203). -/
def onePole (alpha : ℚ) : List ℚ → List ℚ
  | [] => []
  | x :: xs => x :: onePoleAux alpha x xs

/-- `_apply_telephone_eq` (lines 79-150): buffers shorter than 100 samples are
returned unchanged (lines 84-86); otherwise the FFT-based frequency shaping,
abstracted here as the parameter `spectral`, is applied. -/
def applyTelephoneEq (spectral : List ℚ → List ℚ) (audio : List ℚ) : List ℚ :=
  if audio.length < 100 then audio else spectral audio

/-- `_apply_digital_transfer_effects` (lines 152-205), with `np.tanh` as the
parameter `tanh`.  Buffers shorter than 100 samples receive only the bit
reduction (lines 156-162); otherwise: quantization, 5-tap smoothing (guarded
by `len > 20`), compression, saturation, harmonic warmth, and the one-pole
filter (guarded by `len > 10`). -/
def applyDigitalTransferEffects (tanh : ℚ → ℚ) (strength : ℚ) (rate : ℕ)
    (audio : List ℚ) : List ℚ :=
  if audio.length < 100 then
    quantize (bitDepth strength) audio
  else
    let q := quantize (bitDepth strength) audio
    let c := if 20 < q.length then convValid kernel5 (edgePad 2 q) else q
    let threshold := 0.15 + strength * 0.1
    let ratio := 1.3 + strength * 0.4
    let comp := c.map (compressSample threshold ratio)
    let a := 0.05 + strength * 0.05
    let sat := comp.map (fun x => tanh (x * (1 + a)) / (1 + a))
    let h := 0.01 + strength * 0.01
    let warm := sat.map (fun x => x + h * sgn x * x ^ 2)
    if 10 < warm.length then onePole (0.8 + strength * 0.1) warm else warm

/-- `gap_samples = int(0.05 * sample_rate)` (line 216): 50 ms of silence. -/
def gapSamples (rate : ℕ) : ℕ := rate / 20

/-- The splicing in `_add_pda_start_beep` (lines 215-230): a zero buffer of
`len(beep) + gap + len(audio)` samples with the beep written at the start and
the audio after the gap — i.e. `beep ++ zeros gap ++ audio`.  When no beep is
available (`start_beep is None`, lines 211-213) the audio passes through. -/
def addPdaStartBeep (startBeep : Option (List ℚ)) (gap : ℕ) (audio : List ℚ) : List ℚ :=
  match startBeep with
  | none => audio
  | some beep => beep ++ List.replicate gap 0 ++ audio

/-- `peak = np.max(np.abs(audio_data))` (line 315), 0 on the empty buffer. -/
def peakOf (l : List ℚ) : ℚ := l.foldr (fun x m => max |x| m) 0

/-- `_normalize_audio` (lines 313-318): scale so the peak equals `target_peak`
when the peak is positive, otherwise return the buffer unchanged. -/
def normalizeAudio (targetPeak : ℚ) (audio : List ℚ) : List ℚ :=
  if 0 < peakOf audio then audio.map (fun x => x * (targetPeak / peakOf audio))
  else audio

/-- The buffer reaching `_normalize_audio` on the exception-free path of
`apply_radio_effects` (lines 57-63): EQ, then transfer effects, then beep. -/
def preNormalized (spectral : List ℚ → List ℚ) (tanh : ℚ → ℚ) (strength : ℚ)
    (rate : ℕ) (startBeep : Option (List ℚ)) (audio : List ℚ) : List ℚ :=
  addPdaStartBeep startBeep (gapSamples rate)
    (applyDigitalTransferEffects tanh strength rate (applyTelephoneEq spectral audio))

/-- The final buffer written to the output file on the exception-free path
(lines 57-70): the pipeline followed by normalization to peak 0.8. -/
def applySuccess (spectral : List ℚ → List ℚ) (tanh : ℚ → ℚ) (strength : ℚ)
    (rate : ℕ) (startBeep : Option (List ℚ)) (audio : List ℚ) : List ℚ :=
  normalizeAudio 0.8 (preNormalized spectral tanh strength rate startBeep audio)

/-- Exception oracle for `apply_radio_effects`: one flag per stage of the
`try` block that can raise (`sf.read`, `_apply_telephone_eq`,
`_apply_digital_transfer_effects`, the body of `_add_pda_start_beep`,
`_normalize_audio`, `sf.write`). -/
structure FxOracle where
  loadFails : Bool
  eqFails : Bool
  transferFails : Bool
  beepFails : Bool
  normFails : Bool
  writeFails : Bool
deriving DecidableEq

/-- The `Optional[Path]` returned by `apply_radio_effects`: `none` models
Python `None`, `originalFile` the `input_file` reference, and
`processedFile buf` the freshly written `output_file` holding `buf`. -/
inductive RadioPath where
  | originalFile : RadioPath
  | processedFile (buf : List ℚ) : RadioPath
deriving DecidableEq

/-- `apply_radio_effects` (lines 39-77).  Missing input returns `None`
(lines 41-42).  An exception anywhere in the `try` block lands in the single
outer handler, which returns `input_file` (lines 75-77) — except that an
exception inside `_add_pda_start_beep` is caught by that method's own handler
(lines 231-233), which returns its argument, after which processing
continues with normalization and the file write. -/
def applyRadioEffects (o : FxOracle) (spectral : List ℚ → List ℚ) (tanh : ℚ → ℚ)
    (strength : ℚ) (rate : ℕ) (startBeep : Option (List ℚ))
    (inputExists : Bool) (audioData : List ℚ) : Option RadioPath :=
  if inputExists = false then none
  else if o.loadFails then some RadioPath.originalFile
  else if o.eqFails then some RadioPath.originalFile
  else
    let eqProcessed := applyTelephoneEq spectral audioData
    if o.transferFails then some RadioPath.originalFile
    else
      let transferred := applyDigitalTransferEffects tanh strength rate eqProcessed
      let withBeep :=
        if o.beepFails then transferred
        else addPdaStartBeep startBeep (gapSamples rate) transferred
      if o.normFails then some RadioPath.originalFile
      else
        let finalAudio := normalizeAudio 0.8 withBeep
        if o.writeFails then some RadioPath.originalFile
        else some (RadioPath.processedFile finalAudio)

/-- A playback request as enqueued by `queue_audio`: the tuple
`(audio_file, volume, playback_id)` (line 108).  Files and ids are abstract
naturals (uuid4 strings are modelled by caller-chosen fresh naturals). -/
structure PlaybackRequest where
  file : ℕ
  volume : ℚ
  id : ℕ
deriving DecidableEq

/-- The mutable state of `AudioQueue`: the pending FIFO (`audio_queue`), the
`is_playing` flag, and `current_playback_id` (`none` before any submission). -/
structure QueueState where
  pending : List PlaybackRequest
  isPlaying : Bool
  currentId : Option ℕ
deriving DecidableEq

/-- `clear_pending` (lines 113-124): drain every pending item. -/
def clearPending (s : QueueState) : QueueState := { s with pending := [] }

/-- `queue_audio` (lines 87-111).  `fileExists` is the result of
`audio_file.exists()`; `playbackId` is the fresh uuid.  Missing file: return
`False` with no mutation.  Otherwise: record the id as current, clear the
pending queue when idle and non-empty, append the request, return `True`. -/
def queueAudio (fileExists : Bool) (file : ℕ) (volume : ℚ) (playbackId : ℕ)
    (s : QueueState) : QueueState × Bool :=
  if fileExists = false then (s, false)
  else
    let s1 : QueueState := { s with currentId := some playbackId }
    let s2 : QueueState :=
      if s1.isPlaying = false ∧ s1.pending ≠ [] then clearPending s1 else s1
    ({ s2 with pending := s2.pending ++ [⟨file, volume, playbackId⟩] }, true)

/-- One dequeue iteration of `_process_audio_queue` (lines 33-76), restricted
to the regular item path.  The second component is the request handed to the
playback callback (`none` = the callback was not invoked).  An item whose
`playback_id` differs from `current_playback_id` is discarded (lines 54-57);
otherwise it is played and `is_playing` ends `False` (lines 60-76). -/
def workerDequeue (s : QueueState) : QueueState × Option PlaybackRequest :=
  match s.pending with
  | [] => (s, none)
  | item :: rest =>
    if some item.id = s.currentId then
      ({ s with pending := rest, isPlaying := false }, some item)
    else
      ({ s with pending := rest }, none)

end TalkerTTS

namespace TalkerTTS

/-! ## Helper lemmas shared by the claim theorems -/

/-- Python `int` agrees with the floor on non-negative rationals. -/
theorem pyTrunc_of_nonneg (q : ℚ) (h : 0 ≤ q) : pyTrunc q = ⌊q⌋ := by
  unfold pyTrunc; exact if_pos h

/-- Rewriting `roundHalfEven` once the floor of the argument is known. -/
theorem roundHalfEven_of_floor (q : ℚ) (n : ℤ) (h : ⌊q⌋ = n) :
    roundHalfEven q =
      if q - n < 1 / 2 then n
      else if (1 : ℚ) / 2 < q - n then n + 1
      else if n % 2 = 0 then n else n + 1 := by
  unfold roundHalfEven; rw [h]

theorem peakOf_cons (x : ℚ) (xs : List ℚ) : peakOf (x :: xs) = max |x| (peakOf xs) := rfl

theorem peakOf_nonneg (l : List ℚ) : 0 ≤ peakOf l := by
  induction l with
  | nil => exact le_refl 0
  | cons x xs ih => exact le_trans ih (le_max_right _ _)

/-- Scaling every sample by `c` scales the peak by `|c|`. -/
theorem peakOf_map_mul (c : ℚ) (l : List ℚ) :
    peakOf (l.map (fun x => x * c)) = peakOf l * |c| := by
  induction l with
  | nil => simp [peakOf]
  | cons x xs ih =>
    rw [List.map_cons, peakOf_cons, peakOf_cons, ih, abs_mul,
      max_mul_of_nonneg _ _ (abs_nonneg c)]

/-- Normalizing a non-silent buffer yields a buffer whose peak is exactly the
target. -/
theorem peakOf_normalizeAudio (t : ℚ) (ht : 0 ≤ t) (l : List ℚ) (hp : 0 < peakOf l) :
    peakOf (normalizeAudio t l) = t := by
  unfold normalizeAudio
  rw [if_pos hp, peakOf_map_mul, abs_of_nonneg (div_nonneg ht hp.le),
    ← mul_div_assoc, mul_div_cancel_left₀ _ hp.ne']

/-- Normalizing a silent buffer is the identity. -/
theorem normalizeAudio_of_peak_zero (t : ℚ) (l : List ℚ) (hp : peakOf l = 0) :
    normalizeAudio t l = l := by
  unfold normalizeAudio
  rw [hp, if_neg (lt_irrefl 0)]

theorem length_quantize (d : ℤ) (l : List ℚ) : (quantize d l).length = l.length := by
  simp [quantize]

theorem length_edgePad (k : ℕ) (l : List ℚ) : (edgePad k l).length = l.length + 2 * k := by
  simp [edgePad]; omega

theorem length_convValid (kernel a : List ℚ) :
    (convValid kernel a).length = a.length + 1 - kernel.length := by
  simp [convValid]

theorem length_onePoleAux (alpha : ℚ) (l : List ℚ) :
    ∀ prev : ℚ, (onePoleAux alpha prev l).length = l.length := by
  induction l with
  | nil => intro prev; rfl
  | cons x xs ih => intro prev; simp [onePoleAux, ih]

theorem length_onePole (alpha : ℚ) (l : List ℚ) : (onePole alpha l).length = l.length := by
  cases l with
  | nil => rfl
  | cons x xs => simp [onePole, length_onePoleAux]

/-- The guarded 5-tap smoothing step preserves length. -/
theorem length_convStep (q : List ℚ) :
    (if 20 < q.length then convValid kernel5 (edgePad 2 q) else q).length = q.length := by
  split
  · rw [length_convValid, length_edgePad]
    simp only [kernel5, List.length_cons, List.length_nil]
    omega
  · rfl

/-- The digital-transfer stage preserves length on every branch. -/
theorem length_applyDigitalTransferEffects (tanh : ℚ → ℚ) (strength : ℚ) (rate : ℕ)
    (l : List ℚ) : (applyDigitalTransferEffects tanh strength rate l).length = l.length := by
  unfold applyDigitalTransferEffects
  split
  · exact length_quantize _ _
  · have h1 : (if 20 < (quantize (bitDepth strength) l).length
        then convValid kernel5 (edgePad 2 (quantize (bitDepth strength) l))
        else quantize (bitDepth strength) l).length = l.length := by
      rw [length_convStep, length_quantize]
    simp only [List.length_map]
    generalize (if 20 < (quantize (bitDepth strength) l).length
        then convValid kernel5 (edgePad 2 (quantize (bitDepth strength) l))
        else quantize (bitDepth strength) l) = c at h1 ⊢
    split
    · rw [length_onePole]
      simp only [List.length_map]
      exact h1
    · simp only [List.length_map]
      exact h1

/-- The EQ stage preserves length whenever the abstracted FFT body does
(the source body is ifft of a pointwise-scaled fft, which preserves length). -/
theorem length_applyTelephoneEq (spectral : List ℚ → List ℚ) (audio : List ℚ)
    (hspec : ∀ l : List ℚ, (spectral l).length = l.length) :
    (applyTelephoneEq spectral audio).length = audio.length := by
  unfold applyTelephoneEq
  split
  · rfl
  · exact hspec audio

theorem length_addPdaStartBeep_some (beep : List ℚ) (gap : ℕ) (audio : List ℚ) :
    (addPdaStartBeep (some beep) gap audio).length = beep.length + gap + audio.length := by
  simp [addPdaStartBeep]; omega

theorem length_normalizeAudio (t : ℚ) (l : List ℚ) :
    (normalizeAudio t l).length = l.length := by
  unfold normalizeAudio; split <;> simp

/-- One full exception-free application of the effects pipeline adds exactly
the beep length plus the gap to the buffer length. -/
theorem length_applySuccess (spectral : List ℚ → List ℚ) (tanh : ℚ → ℚ) (strength : ℚ)
    (rate : ℕ) (beep audio : List ℚ)
    (hspec : ∀ l : List ℚ, (spectral l).length = l.length) :
    (applySuccess spectral tanh strength rate (some beep) audio).length
      = beep.length + gapSamples rate + audio.length := by
  unfold applySuccess preNormalized
  rw [length_normalizeAudio, length_addPdaStartBeep_some,
    length_applyDigitalTransferEffects, length_applyTelephoneEq _ _ hspec]

/-- `queue_audio` with an existing file records the fresh id as current on
both the cleared and the uncleared branch (lines 94-95). -/
theorem queueAudio_currentId (s : QueueState) (file : ℕ) (volume : ℚ) (pid : ℕ) :
    ((queueAudio true file volume pid s).1).currentId = some pid := by
  unfold queueAudio clearPending
  simp only [Bool.true_eq_false, if_false]
  split <;> rfl

theorem maxVal_14 : maxVal 14 = 8191 := by norm_num [maxVal]

theorem maxVal_13 : maxVal 13 = 4095 := by norm_num [maxVal]

/-! ## Claim theorems -/

/-- Claim C1, counterexample: an exception raised during beep framing (the
`beepFails` flag) does NOT make `apply_radio_effects` return the original
input file — the beep stage's own handler swallows it and processing
continues to a freshly written output file. -/
theorem claim1_counterexample :
    applyRadioEffects ⟨false, false, false, true, false, false⟩ id id 0.8 24000
      (some [1 / 4]) true [1 / 2] ≠ some RadioPath.originalFile := by
  intro h
  exact RadioPath.noConfusion (Option.some.inj h)

/-- Claim C1 (amended): for every existing input file and every strength, an
exception raised during loading, EQ, digital-transfer effects, normalization,
or writing makes `apply_radio_effects` return the original input file
reference; an exception during beep framing is caught inside that stage and
processing continues.  In every case no error propagates to the caller
(the result is never `none` for an existing input). -/
theorem claim1_amended (o : FxOracle) (spectral : List ℚ → List ℚ) (tanh : ℚ → ℚ)
    (strength : ℚ) (rate : ℕ) (startBeep : Option (List ℚ)) (audio : List ℚ) :
    ((o.loadFails = true ∨ o.eqFails = true ∨ o.transferFails = true ∨
        o.normFails = true ∨ o.writeFails = true) →
      applyRadioEffects o spectral tanh strength rate startBeep true audio
        = some RadioPath.originalFile) ∧
    applyRadioEffects o spectral tanh strength rate startBeep true audio ≠ none := by
  obtain ⟨l, e, t, b, n, w⟩ := o
  cases l <;> cases e <;> cases t <;> cases b <;> cases n <;> cases w <;>
    simp [applyRadioEffects]

/-- Claim C1, witness: a loading failure at a concrete input returns the
original file and is not `none`. -/
theorem claim1_witness :
    applyRadioEffects ⟨true, false, false, false, false, false⟩ id id 0.8 24000
      (some [1 / 4]) true [1 / 2] = some RadioPath.originalFile ∧
    applyRadioEffects ⟨true, false, false, false, false, false⟩ id id 0.8 24000
      (some [1 / 4]) true [1 / 2] ≠ none :=
  ⟨(claim1_amended ⟨true, false, false, false, false, false⟩ id id 0.8 24000
      (some [1 / 4]) [1 / 2]).1 (Or.inl rfl),
   (claim1_amended ⟨true, false, false, false, false, false⟩ id id 0.8 24000
      (some [1 / 4]) [1 / 2]).2⟩

/-- Claim C2: for every input buffer and strength, the final buffer produced
by the exception-free pipeline has peak exactly the 0.8 target; when the
buffer reaching normalization is all-silent (peak 0), normalization returns
it unchanged. -/
theorem claim2_peak (spectral : List ℚ → List ℚ) (tanh : ℚ → ℚ) (strength : ℚ)
    (rate : ℕ) (startBeep : Option (List ℚ)) (audio : List ℚ) :
    (0 < peakOf (preNormalized spectral tanh strength rate startBeep audio) →
      peakOf (applySuccess spectral tanh strength rate startBeep audio) = 0.8) ∧
    (peakOf (preNormalized spectral tanh strength rate startBeep audio) = 0 →
      applySuccess spectral tanh strength rate startBeep audio
        = preNormalized spectral tanh strength rate startBeep audio) := by
  constructor
  · intro hp
    unfold applySuccess
    exact peakOf_normalizeAudio 0.8 (by norm_num) _ hp
  · intro hp
    unfold applySuccess
    exact normalizeAudio_of_peak_zero _ _ hp

/-- Claim C2, witness: a concrete non-silent run ends with peak exactly 0.8. -/
theorem claim2_witness :
    0 < peakOf (preNormalized id id 0 20 (some [1]) []) ∧
    peakOf (applySuccess id id 0 20 (some [1]) []) = 0.8 := by
  have hpre : preNormalized id id 0 20 (some [1]) [] = [1, 0] := by
    norm_num [preNormalized, addPdaStartBeep, gapSamples, applyDigitalTransferEffects,
      applyTelephoneEq, quantize, List.replicate]
  have hp : 0 < peakOf (preNormalized id id 0 20 (some [1]) []) := by
    rw [hpre, peakOf_cons, peakOf_cons]
    simp [peakOf]
  exact ⟨hp, (claim2_peak id id 0 20 (some [1]) []).1 hp⟩

/-- Claim C3: submitting while idle with a non-empty backlog clears the
backlog so the pending sequence afterwards holds only the new request;
submitting while playing appends behind the existing pending items without
evicting anything. -/
theorem claim3_submit (s : QueueState) (file : ℕ) (volume : ℚ) (pid : ℕ) :
    (s.isPlaying = false → s.pending ≠ [] →
      ((queueAudio true file volume pid s).1).pending = [⟨file, volume, pid⟩]) ∧
    (s.isPlaying = true →
      ((queueAudio true file volume pid s).1).pending
        = s.pending ++ [⟨file, volume, pid⟩]) := by
  constructor
  · intro h1 h2
    simp [queueAudio, clearPending, h1, h2]
  · intro h1
    simp [queueAudio, clearPending, h1]

/-- Claim C3, witness: concrete idle and playing submissions. -/
theorem claim3_witness :
    ((queueAudio true 2 1 2 ⟨[⟨1, 1, 1⟩], false, some 1⟩).1).pending = [⟨2, 1, 2⟩] ∧
    ((queueAudio true 2 1 2 ⟨[⟨1, 1, 1⟩], true, some 1⟩).1).pending
      = [⟨1, 1, 1⟩, ⟨2, 1, 2⟩] :=
  ⟨(claim3_submit ⟨[⟨1, 1, 1⟩], false, some 1⟩ 2 1 2).1 rfl (List.cons_ne_nil _ _),
   (claim3_submit ⟨[⟨1, 1, 1⟩], true, some 1⟩ 2 1 2).2 rfl⟩

/-- Claim C4: a request superseded before dequeue (its id differs from the
current id set by a newer submission) is discarded by the worker without
invoking the playback callback, and it is removed from the pending queue. -/
theorem claim4_stale (s : QueueState) (file : ℕ) (volume : ℚ) (pid : ℕ)
    (item : PlaybackRequest) (rest : List PlaybackRequest)
    (hid : item.id ≠ pid)
    (hp : ((queueAudio true file volume pid s).1).pending = item :: rest) :
    (workerDequeue ((queueAudio true file volume pid s).1)).2 = none ∧
    (workerDequeue ((queueAudio true file volume pid s).1)).1.pending = rest := by
  have hc := queueAudio_currentId s file volume pid
  unfold workerDequeue
  rw [hp, hc]
  simp [hid]

/-- Claim C4, witness: submit request 2 while request 1 is pending and
playback is busy; dequeuing request 1 afterwards invokes no callback. -/
theorem claim4_witness :
    (workerDequeue ((queueAudio true 2 1 2 ⟨[⟨1, 1, 1⟩], true, some 1⟩).1)).2 = none ∧
    (workerDequeue ((queueAudio true 2 1 2 ⟨[⟨1, 1, 1⟩], true, some 1⟩).1)).1.pending
      = [⟨2, 1, 2⟩] :=
  claim4_stale ⟨[⟨1, 1, 1⟩], true, some 1⟩ 2 1 2 ⟨1, 1, 1⟩ [⟨2, 1, 2⟩] (by decide) rfl

/-- Claim C5, counterexample: at strength 0.8 the code quantizes with depth
`15 - int(2*0.8) = 14`, while the claimed formula `15 - round(2*0.8)` gives
13, and the digital-transfer stage's output on a concrete one-sample buffer
differs from quantization at the claimed depth. -/
theorem claim5_counterexample :
    bitDepth 0.8 = 14 ∧ bitDepthSpec 0.8 = 13 ∧
    applyDigitalTransferEffects id 0.8 24000 [1 / 8191]
      ≠ quantize (bitDepthSpec 0.8) [1 / 8191] := by
  have hb : bitDepth 0.8 = 14 := by norm_num [bitDepth, pyTrunc]
  have hs : bitDepthSpec 0.8 = 13 := by norm_num [bitDepthSpec, roundHalfEven]
  have hq14 : quantize 14 [(1 : ℚ) / 8191] = [1 / 8191] := by
    unfold quantize
    rw [List.map_cons, List.map_nil, maxVal_14]
    rw [show ((1 : ℚ) / 8191 * 8191) = 1 by norm_num]
    rw [roundHalfEven_of_floor 1 1 (by norm_num)]
    norm_num
  have hq13 : quantize 13 [(1 : ℚ) / 8191] = [0] := by
    unfold quantize
    rw [List.map_cons, List.map_nil, maxVal_13]
    rw [roundHalfEven_of_floor ((1 : ℚ) / 8191 * 4095) 0
      (by rw [Int.floor_eq_zero_iff]; constructor <;> norm_num)]
    norm_num
  refine ⟨hb, hs, ?_⟩
  have hlhs : applyDigitalTransferEffects id 0.8 24000 [(1 : ℚ) / 8191] = [1 / 8191] := by
    unfold applyDigitalTransferEffects
    rw [if_pos (by norm_num), hb, hq14]
  rw [hlhs, hs, hq13]
  intro h
  have := List.head_eq_of_cons_eq h
  norm_num at this

/-- Claim C5 (amended): for every strength in [0,1] the digital-transfer
stage quantizes by scale-round-rescale to an effective depth of
`15 - int(2*strength)` bits (truncation, not rounding), which lies in
{13, 14, 15}; on short buffers the stage is exactly that quantization. -/
theorem claim5_amended (strength : ℚ) (h0 : 0 ≤ strength) (h1 : strength ≤ 1) :
    bitDepth strength = 15 - ⌊2 * strength⌋ ∧
    13 ≤ bitDepth strength ∧ bitDepth strength ≤ 15 ∧
    ∀ (tanh : ℚ → ℚ) (rate : ℕ) (audio : List ℚ), audio.length < 100 →
      applyDigitalTransferEffects tanh strength rate audio
        = quantize (bitDepth strength) audio := by
  have hnn : (0 : ℚ) ≤ strength * 2 := by linarith
  have hfl : pyTrunc (strength * 2) = ⌊strength * 2⌋ := pyTrunc_of_nonneg _ hnn
  have hlb : (0 : ℤ) ≤ ⌊strength * 2⌋ := Int.floor_nonneg.mpr hnn
  have hub : ⌊strength * 2⌋ ≤ 2 := by
    have h2 : strength * 2 ≤ (2 : ℚ) := by linarith
    have := Int.floor_le_floor h2
    simpa using this
  refine ⟨?_, ?_, ?_, ?_⟩
  · unfold bitDepth
    rw [hfl, mul_comm]
  · unfold bitDepth
    rw [hfl]; omega
  · unfold bitDepth
    rw [hfl]; omega
  · intro tanh rate audio h
    unfold applyDigitalTransferEffects
    rw [if_pos h]

/-- Claim C5, witness: the amended statement instantiated at strength 0.8. -/
theorem claim5_witness :
    (0 : ℚ) ≤ 0.8 ∧ (0.8 : ℚ) ≤ 1 ∧
    (bitDepth 0.8 = 15 - ⌊2 * (0.8 : ℚ)⌋ ∧
      13 ≤ bitDepth 0.8 ∧ bitDepth 0.8 ≤ 15 ∧
      ∀ (tanh : ℚ → ℚ) (rate : ℕ) (audio : List ℚ), audio.length < 100 →
        applyDigitalTransferEffects tanh 0.8 rate audio = quantize (bitDepth 0.8) audio) :=
  ⟨by norm_num, by norm_num, claim5_amended 0.8 (by norm_num) (by norm_num)⟩

/-- Claim C6: for every buffer of fewer than 100 samples the telephone-EQ
stage is the identity, whatever the FFT body would have computed. -/
theorem claim6_short_buffer (spectral : List ℚ → List ℚ) (audio : List ℚ)
    (h : audio.length < 100) :
    applyTelephoneEq spectral audio = audio := by
  unfold applyTelephoneEq
  exact if_pos h

/-- Claim C6, witness: a 50-sample buffer passes through bit-identically even
when the abstracted spectral body would erase it. -/
theorem claim6_witness :
    (List.replicate 50 ((1 : ℚ) / 3)).length < 100 ∧
    applyTelephoneEq (fun _ => []) (List.replicate 50 ((1 : ℚ) / 3))
      = List.replicate 50 ((1 : ℚ) / 3) :=
  ⟨by simp, claim6_short_buffer _ _ (by simp)⟩

/-- Claim C7: beep framing produces a buffer of length
`len(beep) + gap + len(input)`, so the pipeline is not idempotent: a second
full application grows the buffer by the beep-plus-gap length (given that
the FFT body preserves length, as ifft of a pointwise-scaled fft does). -/
theorem claim7_not_idempotent (spectral : List ℚ → List ℚ) (tanh : ℚ → ℚ) (strength : ℚ)
    (rate : ℕ) (beep audio : List ℚ)
    (hspec : ∀ l : List ℚ, (spectral l).length = l.length) :
    (addPdaStartBeep (some beep) (gapSamples rate) audio).length
      = beep.length + gapSamples rate + audio.length ∧
    (applySuccess spectral tanh strength rate (some beep)
        (applySuccess spectral tanh strength rate (some beep) audio)).length
      = (applySuccess spectral tanh strength rate (some beep) audio).length
        + (beep.length + gapSamples rate) := by
  have h1 := length_applySuccess spectral tanh strength rate beep audio hspec
  have h2 := length_applySuccess spectral tanh strength rate beep
    (applySuccess spectral tanh strength rate (some beep) audio) hspec
  exact ⟨length_addPdaStartBeep_some _ _ _, by omega⟩

/-- Claim C7, witness: concrete double application with the identity standing
in for the (length-preserving) spectral body. -/
theorem claim7_witness :
    (∀ l : List ℚ, (id l).length = l.length) ∧
    ((addPdaStartBeep (some [1 / 4]) (gapSamples 20) [1 / 2]).length
        = ([1 / 4] : List ℚ).length + gapSamples 20 + ([1 / 2] : List ℚ).length ∧
      (applySuccess id id 0.8 20 (some [1 / 4])
          (applySuccess id id 0.8 20 (some [1 / 4]) [1 / 2])).length
        = (applySuccess id id 0.8 20 (some [1 / 4]) [1 / 2]).length
          + (([1 / 4] : List ℚ).length + gapSamples 20)) :=
  ⟨fun l => rfl, claim7_not_idempotent id id 0.8 20 [1 / 4] [1 / 2] (fun l => rfl)⟩

/-- Claim C8, counterexample: a failure in the transfer-emulation stage lands
in the single outer handler and yields the ORIGINAL input file — not the
EQ-processed intermediate the claim promises. -/
theorem claim8_counterexample :
    applyRadioEffects ⟨false, false, true, false, false, false⟩ id id 0.8 24000
      (some [1 / 4]) true [1 / 2] = some RadioPath.originalFile := rfl

/-- Claim C8 (amended): only the beep stage catches its exceptions per stage
(falling back to the pre-beep intermediate, with processing continuing to
normalization and the output file); exceptions in spectral shaping or
transfer emulation reach `apply_radio_effects`' single outer handler, which
returns the original input file.  The caller is never aborted. -/
theorem claim8_amended (o : FxOracle) (spectral : List ℚ → List ℚ) (tanh : ℚ → ℚ)
    (strength : ℚ) (rate : ℕ) (startBeep : Option (List ℚ)) (audio : List ℚ) :
    ((o.eqFails = true ∨ o.transferFails = true) →
      applyRadioEffects o spectral tanh strength rate startBeep true audio
        = some RadioPath.originalFile) ∧
    (o = ⟨false, false, false, true, false, false⟩ →
      applyRadioEffects o spectral tanh strength rate startBeep true audio
        = some (RadioPath.processedFile (normalizeAudio 0.8
            (applyDigitalTransferEffects tanh strength rate
              (applyTelephoneEq spectral audio))))) := by
  obtain ⟨l, e, t, b, n, w⟩ := o
  cases l <;> cases e <;> cases t <;> cases b <;> cases n <;> cases w <;>
    simp [applyRadioEffects]

/-- Claim C8, witness: a concrete transfer failure returns the original file,
and a concrete beep failure returns the normalized pre-beep intermediate. -/
theorem claim8_witness :
    applyRadioEffects ⟨false, false, true, false, false, false⟩ id id 0.8 24000
      (some [1 / 4]) true [1 / 2] = some RadioPath.originalFile ∧
    applyRadioEffects ⟨false, false, false, true, false, false⟩ id id 0.8 24000
      (some [1 / 4]) true [1 / 2]
      = some (RadioPath.processedFile (normalizeAudio 0.8
          (applyDigitalTransferEffects id 0.8 24000 (applyTelephoneEq id [1 / 2])))) :=
  ⟨(claim8_amended ⟨false, false, true, false, false, false⟩ id id 0.8 24000
      (some [1 / 4]) [1 / 2]).1 (Or.inr rfl),
   (claim8_amended ⟨false, false, false, true, false, false⟩ id id 0.8 24000
      (some [1 / 4]) [1 / 2]).2 rfl⟩

/-- Claim C9: `queue_audio` on a missing file returns `False` with no state
mutation; on an existing file it returns `True`, records the fresh id as the
current id, and appends the request at the tail of the pending sequence. -/
theorem claim9_submit (s : QueueState) (file : ℕ) (volume : ℚ) (pid : ℕ) :
    queueAudio false file volume pid s = (s, false) ∧
    (queueAudio true file volume pid s).2 = true ∧
    ((queueAudio true file volume pid s).1).currentId = some pid ∧
    ∃ front : List PlaybackRequest,
      ((queueAudio true file volume pid s).1).pending = front ++ [⟨file, volume, pid⟩] := by
  refine ⟨by simp [queueAudio], by simp [queueAudio],
    queueAudio_currentId s file volume pid, ?_⟩
  by_cases h : s.isPlaying = false ∧ s.pending ≠ []
  · exact ⟨[], by simp [queueAudio, clearPending, h.1, h.2]⟩
  · refine ⟨s.pending, ?_⟩
    unfold queueAudio clearPending
    simp only [Bool.true_eq_false, if_false]
    rw [if_neg (by simpa using h)]

/-- Claim C10: a missing input makes `apply_radio_effects` return `None`, a
failure value distinct from the return-original fallback used for processing
exceptions. -/
theorem claim10_missing_input (o : FxOracle) (spectral : List ℚ → List ℚ) (tanh : ℚ → ℚ)
    (strength : ℚ) (rate : ℕ) (startBeep : Option (List ℚ)) (audio : List ℚ) :
    applyRadioEffects o spectral tanh strength rate startBeep false audio = none ∧
    (none : Option RadioPath) ≠ some RadioPath.originalFile :=
  ⟨by simp [applyRadioEffects], by simp⟩

end TalkerTTS
